import Mathlib

/-
Verification of the commity configuration-driven commit-message pipeline.

The definitions below are a shallow embedding of the Go sources:
  - internal/config (Entry variants, Configuration.UnmarshalYAML)
  - cmd/commity/main.go (getStoredKeys, restoreParamMap, updateParamMap,
    validateInput, the per-entry overlay merge in runCommity)
  - internal/utils/utils.go (RenderCommitMessage)

Go maps are embedded as functions String -> Option v; a missing key reads as
none and Go map indexing (which yields the zero value "") is pmGet. Go string
length len(s) is the UTF-8 byte size. The regular-expression engine and the
text/template engine are external libraries; they are abstracted as parameters
(a compile function) and, for templates, a small fragment evaluator modelled
from the specification.
-/

set_option autoImplicit false

namespace Commity

/-- A single selectable option of a Choice entry (config.Choice). -/
structure Choice where
  value : String
  label : String
deriving DecidableEq

/-- Text input field (config.TextEntry). The field value is the runtime value,
initialized from default at parse time. -/
structure TextEntry where
  name : String
  label : String
  description : String
  minLength : Int
  maxLength : Int
  multiLine : Bool
  pattern : String
  patternHint : String
  default : String
  value : String
  store : Bool
deriving DecidableEq

/-- Choice input field (config.ChoiceEntry). -/
structure ChoiceEntry where
  name : String
  label : String
  description : String
  choices : List Choice
  default : String
  value : String
  store : Bool
  showValues : Bool
deriving DecidableEq

/-- Boolean input field (config.BooleanEntry). -/
structure BooleanEntry where
  name : String
  label : String
  description : String
  default : Bool
  value : Bool
  store : Bool
deriving DecidableEq

/-- The closed sum of entry variants (the config.Entry interface has exactly
three implementations). -/
inductive Entry where
  | text (e : TextEntry)
  | choice (e : ChoiceEntry)
  | boolean (e : BooleanEntry)
deriving DecidableEq

/-- A dynamically typed value as returned by Entry.GetValue in Go
(string for Text and Choice, bool for Boolean). -/
inductive GoValue where
  | str (s : String)
  | bool (b : Bool)
deriving DecidableEq

/-- Entry.GetName from config. -/
def Entry.getName : Entry → String
  | .text e => e.name
  | .choice e => e.name
  | .boolean e => e.name

/-- Entry.GetValue from config. -/
def Entry.getValue : Entry → GoValue
  | .text e => .str e.value
  | .choice e => .str e.value
  | .boolean e => .bool e.value

/-- The per-variant Store flag, read by the switch in getStoredKeys. -/
def Entry.getStore : Entry → Bool
  | .text e => e.store
  | .choice e => e.store
  | .boolean e => e.store

/-- Go string length: len(s) is the number of UTF-8 bytes. -/
def goLen (s : String) : Int :=
  (s.utf8ByteSize : Int)

/-- A run of n space characters (strings.Repeat of a space). -/
def spaces (n : Nat) : String :=
  String.mk (List.replicate n ' ')

/-- The widest value string among a list of choices, in Go byte length,
computed exactly as the maxValueLength loop in Configuration.UnmarshalYAML. -/
def maxValueLength (choices : List Choice) : Nat :=
  choices.foldl (fun m c => if c.value.utf8ByteSize > m then c.value.utf8ByteSize else m) 0

/-- The showValues label transform of Configuration.UnmarshalYAML: each label
becomes the raw value, then padding spaces up to the widest value width, then
one space, then the original label. -/
def padChoices (choices : List Choice) : List Choice :=
  choices.map fun c =>
    { c with label := c.value ++ spaces (maxValueLength choices - c.value.utf8ByteSize) ++ " " ++ c.label }

/-- Modelled from the spec reading of the showValues transform: the raw value
LEFT-padded (spaces first, value right-aligned) to the widest value width,
placed in front of the original label. Used only to compare against the source
transform padChoices. -/
def padChoicesSpecLeft (choices : List Choice) : List Choice :=
  choices.map fun c =>
    { c with label := spaces (maxValueLength choices - c.value.utf8ByteSize) ++ c.value ++ " " ++ c.label }

/-- One raw YAML entry node, after the yaml library has decoded scalar fields:
it carries the type discriminator together with every variant key. The default
key decodes as a string for Text and Choice and as a bool for Boolean. -/
structure RawEntry where
  type : String
  name : String
  label : String
  description : String
  minLength : Int
  maxLength : Int
  multiLine : Bool
  pattern : String
  patternHint : String
  defaultText : String
  defaultBool : Bool
  choices : List Choice
  store : Bool
  showValues : Bool
deriving DecidableEq

/-- The per-entry dispatch of Configuration.UnmarshalYAML: match the type
discriminator against the three case-sensitive literals, decode the variant,
initialize the live value from the default, apply the showValues transform for
Choice entries; any other discriminator is a hard error naming the type. -/
def parseEntry (r : RawEntry) : Except String Entry :=
  if r.type = "Text" then
    .ok (.text
      { name := r.name, label := r.label, description := r.description
        minLength := r.minLength, maxLength := r.maxLength, multiLine := r.multiLine
        pattern := r.pattern, patternHint := r.patternHint
        default := r.defaultText, value := r.defaultText, store := r.store })
  else if r.type = "Choice" then
    .ok (.choice
      { name := r.name, label := r.label, description := r.description
        choices := if r.showValues then padChoices r.choices else r.choices
        default := r.defaultText, value := r.defaultText
        store := r.store, showValues := r.showValues })
  else if r.type = "Boolean" then
    .ok (.boolean
      { name := r.name, label := r.label, description := r.description
        default := r.defaultBool, value := r.defaultBool, store := r.store })
  else
    .error ("unknown entry type: " ++ r.type)

/-- The whole configuration object (config.Configuration). -/
structure Configuration where
  entries : List Entry
  template : String
  overview : Bool
deriving DecidableEq

/-- The entry loop of Configuration.UnmarshalYAML: parse entries in document
order, aborting at the first failing entry. -/
def parseEntries : List RawEntry → Except String (List Entry)
  | [] => .ok []
  | r :: rs =>
    match parseEntry r with
    | .error msg => .error msg
    | .ok e =>
      match parseEntries rs with
      | .error msg => .error msg
      | .ok es => .ok (e :: es)

/-- Configuration.UnmarshalYAML over an already shape-decoded document. -/
def parseConfiguration (rawEntries : List RawEntry) (template : String) (overview : Bool) :
    Except String Configuration :=
  match parseEntries rawEntries with
  | .error msg => .error msg
  | .ok es => .ok { entries := es, template := template, overview := overview }

/-- The structured content of the error values produced by validateInput in
main.go, one constructor per return site. -/
inductive ValErr where
  | tooShort (minLength got : Int)
  | tooLong (maxLength got : Int)
  | invalidPattern (msg : String)
  | patternMismatch (shown : String)
deriving DecidableEq

/-- A stand-in for regexp.Compile: a compile function either fails with a
message or yields a matcher. validateInput is parametric in it, exactly as the
Go code only calls Compile and MatchString. -/
def RegexCompile := String → Except String (String → Bool)

/-- validateInput from main.go: minimum length, then maximum length when
positive, then, for a non-empty pattern, compile (a failure is wrapped as an
invalid pattern message) and match, the mismatch message showing patternHint
when non-empty and the raw pattern otherwise. -/
def validateInput (compile : RegexCompile) (value : String) (minLength maxLength : Int)
    (pattern patternHint : String) : Option ValErr :=
  if goLen value < minLength then
    some (.tooShort minLength (goLen value))
  else if maxLength > 0 ∧ goLen value > maxLength then
    some (.tooLong maxLength (goLen value))
  else if pattern ≠ "" then
    match compile pattern with
    | .error msg => some (.invalidPattern ("invalid pattern: " ++ msg))
    | .ok re =>
      if re value then none
      else some (.patternMismatch (if patternHint = "" then pattern else patternHint))
  else
    none

/-- A Go map from strings to values of type v, embedded as a lookup function
(none reads as a missing key). -/
def GoMap (v : Type) := String → Option v

/-- The empty Go map. -/
def GoMap.empty {v : Type} : GoMap v := fun _ => none

/-- Go map assignment m[k] = x. -/
def GoMap.insert {v : Type} (m : GoMap v) (k : String) (x : v) : GoMap v :=
  fun q => if q = k then some x else m q

/-- Go map indexing for string-valued maps: a missing key yields the zero
value, the empty string. This is how paramMap[name] reads in main.go. -/
def GoMap.get (m : GoMap String) (k : String) : String :=
  (m k).getD ""

/-- getStoredKeys from main.go: a map from each entry name to its Store flag,
built over the entries in order (a later entry with the same name overwrites an
earlier one, as in a Go map). -/
def getStoredKeys (entries : List Entry) : GoMap Bool :=
  entries.foldl (fun m e => m.insert e.getName e.getStore) GoMap.empty

/-- restoreParamMap from main.go, as the denotation of its loop: for every key
that storedKeys marks true, when the key is not already present in paramMap,
the value persisted on file (when present) is merged in. Keys already present
in paramMap are never touched, and keys not marked for storage never receive a
file value. The Go loop iterates map keys in unspecified order; each key is
read and written independently, so this pointwise form is its denotation. -/
def restoreParamMap (paramMap : GoMap String) (storedKeys : GoMap Bool)
    (fileParams : GoMap String) : GoMap String :=
  fun k =>
    match paramMap k with
    | some v => some v
    | none => if storedKeys k = some true then fileParams k else none

/-- The per-entry overlay merge performed by the loop in runCommity before the
form is shown: a Text value is replaced by a non-empty paramMap entry, a
Choice value is replaced only when the non-empty paramMap entry equals one of
the declared option values (the loop over choices), and a Boolean value is
coerced from a non-empty paramMap entry (case-insensitive true, or the literal
1, and anything else is false). -/
def mergeEntry (pm : GoMap String) : Entry → Entry
  | .text e =>
    if pm.get e.name ≠ "" then .text { e with value := pm.get e.name } else .text e
  | .choice e =>
    let merged :=
      e.choices.foldl
        (fun v c => if pm.get e.name ≠ "" ∧ pm.get e.name = c.value then pm.get e.name else v)
        e.value
    .choice { e with value := merged }
  | .boolean e =>
    if pm.get e.name ≠ "" then
      .boolean { e with value := (pm.get e.name).toLower == "true" || pm.get e.name == "1" }
    else .boolean e

/-- The value-resolution pipeline of runCommity: build storedKeys, merge the
persisted map into paramMap when there are stored keys, then apply the
per-entry overlay merge to every entry in order. -/
def finalEntries (entries : List Entry) (paramMap fileParams : GoMap String) : List Entry :=
  let storedKeys := getStoredKeys entries
  let pm := if entries.isEmpty then paramMap else restoreParamMap paramMap storedKeys fileParams
  entries.map (mergeEntry pm)

/-- The string serialization used by updateParamMap in main.go: Text and
Choice values verbatim, Boolean values as true or false. -/
def serializeEntryValue : Entry → String
  | .text e => e.value
  | .choice e => e.value
  | .boolean e => if e.value then "true" else "false"

/-- updateParamMap from main.go (the map-building part): a fresh map holding,
for every entry whose name storedKeys marks true, the serialized entry value. -/
def updateParamMap (entries : List Entry) (storedKeys : GoMap Bool) : GoMap String :=
  entries.foldl
    (fun m e => if storedKeys e.getName = some true then m.insert e.getName (serializeEntryValue e) else m)
    GoMap.empty

/-- saveParamMapToFile from main.go, on the cache-file state: writing replaces
the previous file contents entirely. -/
def saveParamMapToFile (paramMap : GoMap String) (_previousFile : Option (GoMap String)) :
    Option (GoMap String) :=
  some paramMap

/-- loadParamMapFromFile from main.go, on the cache-file state: a missing file
reads as the empty map. -/
def loadParamMapFromFile : Option (GoMap String) → GoMap String
  | none => GoMap.empty
  | some m => m

/-- Modelled from the spec: the text/template fragment the configuration
templates use (section 4.4) — literal text, variable interpolation, sequencing
and a conditional block with Go truthiness. The engine itself is an external
library not under src. -/
inductive Tmpl where
  | lit (s : String)
  | var (n : String)
  | seq (a b : Tmpl)
  | cond (n : String) (body : Tmpl)
deriving DecidableEq

/-- Modelled from the spec: Go template truthiness — false and the empty
string are falsy, any other value truthy. -/
def goTruthy : Option GoValue → Bool
  | some (.str s) => s ≠ ""
  | some (.bool b) => b
  | none => false

/-- Modelled from the spec: evaluation of the template fragment against a
binding environment; a variable interpolation prints a string verbatim, a bool
as true or false, and a missing key as the no-value placeholder. -/
def evalTmpl (vars : GoMap GoValue) : Tmpl → String
  | .lit s => s
  | .var n =>
    match vars n with
    | some (.str s) => s
    | some (.bool b) => if b then "true" else "false"
    | none => "<no value>"
  | .seq a b => evalTmpl vars a ++ evalTmpl vars b
  | .cond n body => if goTruthy (vars n) then evalTmpl vars body else ""

/-- The binding environment built by RenderCommitMessage in utils.go: one Go
map assignment per entry, in entry order, from name to GetValue. -/
def varsOf (entries : List Entry) : GoMap GoValue :=
  entries.foldl (fun m e => m.insert e.getName e.getValue) GoMap.empty

/-- RenderCommitMessage from utils.go, parametric in the template parser of
the external text/template library: reject an empty template string, parse the
template (wrapping a parse failure), then execute it against the binding
environment built from the entries. The modelled fragment evaluator is total,
so execution errors do not arise in the embedding. -/
def renderCommitMessage (parseTemplate : String → Except String Tmpl)
    (cfg : Configuration) : Except String String :=
  if cfg.template = "" then .error "template string is empty"
  else
    match parseTemplate cfg.template with
    | .error msg => .error ("failed to parse template: " ++ msg)
    | .ok t => .ok (evalTmpl (varsOf cfg.entries) t)

/-- The outcome of submitting one candidate value for a text field. -/
inductive StepOutcome where
  | accept (value : String)
  | reprompt (err : ValErr)
deriving DecidableEq

/-- Modelled from the spec: the validation loop of the external form library
(huh) for a text field, as wired up in runCommity — the validate callback is
validateInput, a non-nil error is displayed inline and the field re-prompts,
and a nil error accepts the value. -/
def textFieldStep (compile : RegexCompile) (e : TextEntry) (input : String) : StepOutcome :=
  match validateInput compile input e.minLength e.maxLength e.pattern e.patternHint with
  | none => .accept input
  | some err => .reprompt err

/-- Generic name-keyed map builder shared by getStoredKeys, varsOf and the
updateParamMap characterization: one Go map insertion per entry in order. -/
def buildMap {v : Type} (f : Entry → v) (base : GoMap v) (entries : List Entry) : GoMap v :=
  entries.foldl (fun m e => m.insert e.getName (f e)) base

/-- The overlay value a field effectively sees after restoreParamMap and Go
map indexing: the override entry when the key is present, else the persisted
file value for store-flagged fields, else the empty string. -/
def effectiveOverlay (override fileParams : GoMap String) (storeFlag : Bool) (name : String) :
    String :=
  match override name with
  | some v => v
  | none => if storeFlag then (fileParams name).getD "" else ""

/-- A regex compile stub whose matcher accepts everything; used to instantiate
parametric theorems at concrete inputs. -/
def reAny : RegexCompile := fun _ => .ok fun _ => true

/-- A regex compile stub that rejects the single unbalanced-parenthesis
pattern, the way regexp.Compile does, and accepts anything else. -/
def reFailLParen : RegexCompile := fun p =>
  if p = "(" then .error "error parsing regexp: missing closing )" else .ok fun _ => true

/-- A text field whose pattern is the non-compiling regular expression. -/
def textEntryBadPattern : TextEntry :=
  { name := "subject", label := "Subject", description := "", minLength := 0, maxLength := 0
    multiLine := false, pattern := "(", patternHint := "", default := "", value := ""
    store := false }

/-- Choice options of unequal value widths, for the showValues transform. -/
def choicesAB : List Choice := [⟨"a", "Alpha"⟩, ⟨"abc", "Beta"⟩]

/-- A raw Choice entry with showValues set, over choicesAB. -/
def rawChoiceAB : RawEntry :=
  { type := "Choice", name := "kind", label := "Kind", description := "", minLength := 0
    maxLength := 0, multiLine := false, pattern := "", patternHint := "", defaultText := "a"
    defaultBool := false, choices := choicesAB, store := false, showValues := true }

/-- A store-flagged Choice field with two options and default feat. -/
def choiceEntryKind : ChoiceEntry :=
  { name := "kind", label := "Kind", description := ""
    choices := [⟨"feat", "Feature"⟩, ⟨"fix", "Fix"⟩]
    default := "feat", value := "feat", store := true, showValues := false }

/-- A one-field configuration around choiceEntryKind. -/
def entriesKind : List Entry := [.choice choiceEntryKind]

/-- An explicit override supplying a value that matches no option of
choiceEntryKind. -/
def overrideBogus : GoMap String := fun k => if k = "kind" then some "bogus" else none

/-- A persisted map holding the option value fix for the kind field. -/
def persistedFix : GoMap String := fun k => if k = "kind" then some "fix" else none

/-- A text field used by concrete witnesses: not store-flagged, default dflt. -/
def textEntryW : TextEntry :=
  { name := "scope", label := "Scope", description := "", minLength := 0, maxLength := 0
    multiLine := false, pattern := "", patternHint := "", default := "dflt", value := "dflt"
    store := false }

/-- A one-field configuration around textEntryW. -/
def entriesW : List Entry := [.text textEntryW]

/-- An override supplying a non-empty value for the scope field. -/
def overrideScope : GoMap String := fun k => if k = "scope" then some "api" else none

/-- A boolean field used by concrete witnesses. -/
def booleanEntryW : BooleanEntry :=
  { name := "breaking", label := "Breaking", description := "", default := false, value := false
    store := true }

/-- An override supplying the uppercase spelling TRUE for the breaking field. -/
def overrideBreaking : GoMap String := fun k => if k = "breaking" then some "TRUE" else none

/-- A two-field store-mixed configuration for the persistence round trip. -/
def entriesStoreMix : List Entry :=
  [.text { textEntryW with name := "scope", value := "api", store := true }
  , .boolean { booleanEntryW with name := "breaking", store := false }]

/-- An override holding the empty string under the scope key. -/
def overrideScopeEmpty : GoMap String := fun k => if k = "scope" then some "" else none

/-- A persisted map holding a non-empty value under the scope key. -/
def persistedScope : GoMap String := fun k => if k = "scope" then some "persisted" else none

/-- A configuration whose single field is textEntryW. -/
def cfgRender1 : Configuration :=
  { entries := [.text textEntryW], template := "msg", overview := false }

/-- The same template and field values as cfgRender1, with different display
metadata. -/
def cfgRender2 : Configuration :=
  { entries := [.text { textEntryW with label := "Other", description := "changed" }]
    template := "msg", overview := true }

/-- Two same-named text fields with different values, the later one last. -/
def dupEntries : List Entry :=
  [.text { textEntryW with name := "x", value := "first" }
  , .text { textEntryW with name := "x", value := "second" }]

theorem GoMap.insert_self {v : Type} (m : GoMap v) (k : String) (x : v) :
    m.insert k x k = some x := by
  simp [GoMap.insert]

theorem GoMap.insert_other {v : Type} (m : GoMap v) (k : String) (x : v) (q : String)
    (h : q ≠ k) : m.insert k x q = m q := by
  simp [GoMap.insert, h]

theorem buildMap_cons {v : Type} (f : Entry → v) (base : GoMap v) (e : Entry)
    (es : List Entry) :
    buildMap f base (e :: es) = buildMap f (base.insert e.getName (f e)) es := rfl

theorem buildMap_not_mem {v : Type} (f : Entry → v) (es : List Entry) :
    ∀ (base : GoMap v) (k : String),
      (∀ e ∈ es, Entry.getName e ≠ k) → buildMap f base es k = base k := by
  induction es with
  | nil => intro base k _; rfl
  | cons e es ih =>
    intro base k h
    rw [buildMap_cons, ih _ k (fun q hq => h q (List.mem_cons_of_mem e hq))]
    exact GoMap.insert_other _ _ _ _ (fun hq => h e (List.mem_cons_self e es) hq.symm)

theorem buildMap_mem {v : Type} (f : Entry → v) (es : List Entry) :
    ∀ (base : GoMap v) (e : Entry), e ∈ es → (es.map Entry.getName).Nodup →
      buildMap f base es e.getName = some (f e) := by
  induction es with
  | nil => intro _ e he _; cases he
  | cons q es ih =>
    intro base e he hnd
    have hnd' : Entry.getName q ∉ es.map Entry.getName ∧ (es.map Entry.getName).Nodup :=
      List.nodup_cons.mp (by simpa using hnd)
    rw [buildMap_cons]
    rcases List.mem_cons.mp he with rfl | hmem
    · rw [buildMap_not_mem f es _ _
        (fun p hp hEq => hnd'.1 (by rw [← hEq]; exact List.mem_map_of_mem _ hp))]
      exact GoMap.insert_self _ _ _
    · exact ih _ e hmem hnd'.2

theorem buildMap_last {v : Type} (f : Entry → v) (e : Entry) (l2 : List Entry)
    (h2 : ∀ q ∈ l2, Entry.getName q ≠ Entry.getName e) :
    ∀ (l1 : List Entry) (base : GoMap v),
      buildMap f base (l1 ++ e :: l2) e.getName = some (f e) := by
  intro l1
  induction l1 with
  | nil =>
    intro base
    rw [List.nil_append, buildMap_cons, buildMap_not_mem f l2 _ _ h2]
    exact GoMap.insert_self _ _ _
  | cons q l1 ih =>
    intro base
    rw [List.cons_append, buildMap_cons]
    exact ih _

theorem buildMap_pairs {v : Type} (f : Entry → v) (es1 : List Entry) :
    ∀ (es2 : List Entry) (base : GoMap v),
      es1.map (fun e => (Entry.getName e, f e)) = es2.map (fun e => (Entry.getName e, f e)) →
      buildMap f base es1 = buildMap f base es2 := by
  induction es1 with
  | nil =>
    intro es2 base h
    have h2 : es2 = [] := by
      cases es2 with
      | nil => rfl
      | cons q qs => simp at h
    subst h2; rfl
  | cons e1 es1 ih =>
    intro es2 base h
    cases es2 with
    | nil => simp at h
    | cons e2 es2 =>
      simp only [List.map_cons, List.cons.injEq] at h
      have hname : e1.getName = e2.getName := congrArg Prod.fst h.1
      have hval : f e1 = f e2 := congrArg Prod.snd h.1
      rw [buildMap_cons, buildMap_cons, hname, hval]
      exact ih es2 _ h.2

theorem getStoredKeys_eq_buildMap (es : List Entry) :
    getStoredKeys es = buildMap Entry.getStore GoMap.empty es := rfl

theorem varsOf_eq_buildMap (es : List Entry) :
    varsOf es = buildMap Entry.getValue GoMap.empty es := rfl

theorem updateFold_eq_filter (sk : GoMap Bool) (es : List Entry) :
    ∀ base : GoMap String,
      es.foldl
        (fun m e => if sk e.getName = some true then m.insert e.getName (serializeEntryValue e) else m)
        base
      = buildMap serializeEntryValue base
          (es.filter fun e => decide (sk e.getName = some true)) := by
  induction es with
  | nil => intro base; rfl
  | cons e es ih =>
    intro base
    rw [List.foldl_cons]
    by_cases h : sk e.getName = some true
    · rw [if_pos h, ih]
      have : (e :: es).filter (fun e => decide (sk e.getName = some true))
          = e :: es.filter (fun e => decide (sk e.getName = some true)) := by
        simp [List.filter_cons, h]
      rw [this, buildMap_cons]
    · rw [if_neg h, ih]
      have : (e :: es).filter (fun e => decide (sk e.getName = some true))
          = es.filter (fun e => decide (sk e.getName = some true)) := by
        simp [List.filter_cons, h]
      rw [this]

theorem updateParamMap_eq_filter (es : List Entry) (sk : GoMap Bool) :
    updateParamMap es sk
      = buildMap serializeEntryValue GoMap.empty
          (es.filter fun e => decide (sk e.getName = some true)) :=
  updateFold_eq_filter sk es GoMap.empty

theorem choiceFold_eq (s : String) (cs : List Choice) :
    ∀ init : String,
      cs.foldl (fun v c => if s ≠ "" ∧ s = c.value then s else v) init
        = if s ≠ "" ∧ s ∈ cs.map Choice.value then s else init := by
  induction cs with
  | nil => intro init; simp
  | cons c cs ih =>
    intro init
    rw [List.foldl_cons, ih]
    by_cases hs : s = ""
    · simp [hs]
    · by_cases h1 : s = c.value
      · have hmemc : s ∈ (c :: cs).map Choice.value := by
          rw [List.map_cons, h1]
          exact List.mem_cons_self _ _
        by_cases h2 : s ∈ cs.map Choice.value
        · rw [if_pos ⟨hs, h2⟩, if_pos ⟨hs, hmemc⟩]
        · rw [if_neg (fun hc => h2 hc.2), if_pos ⟨hs, h1⟩, if_pos ⟨hs, hmemc⟩]
      · have hiff : s ∈ (c :: cs).map Choice.value ↔ s ∈ cs.map Choice.value := by
          rw [List.map_cons, List.mem_cons]
          exact or_iff_right h1
        by_cases h2 : s ∈ cs.map Choice.value
        · rw [if_pos ⟨hs, h2⟩, if_pos ⟨hs, hiff.mpr h2⟩]
        · rw [if_neg (fun hc => h2 hc.2), if_neg (fun hc => h1 hc.2),
            if_neg (fun hc => h2 (hiff.mp hc.2))]

theorem mergeEntry_text (pm : GoMap String) (te : TextEntry) :
    mergeEntry pm (.text te)
      = .text { te with value := if pm.get te.name = "" then te.value else pm.get te.name } := by
  by_cases h : pm.get te.name = "" <;> simp [mergeEntry, h]

theorem mergeEntry_choice (pm : GoMap String) (ce : ChoiceEntry) :
    mergeEntry pm (.choice ce)
      = .choice { ce with value :=
          (if pm.get ce.name ≠ "" ∧ pm.get ce.name ∈ ce.choices.map Choice.value
           then pm.get ce.name else ce.value) } := by
  simp [mergeEntry, choiceFold_eq]

theorem mergeEntry_boolean (pm : GoMap String) (be : BooleanEntry) :
    mergeEntry pm (.boolean be)
      = .boolean { be with value :=
          (if pm.get be.name = "" then be.value
           else ((pm.get be.name).toLower == "true" || pm.get be.name == "1")) } := by
  by_cases h : pm.get be.name = "" <;> simp [mergeEntry, h]

theorem restore_get (entries : List Entry) (override fileParams : GoMap String) (e : Entry)
    (hmem : e ∈ entries) (hnd : (entries.map Entry.getName).Nodup) :
    (restoreParamMap override (getStoredKeys entries) fileParams).get e.getName
      = effectiveOverlay override fileParams e.getStore e.getName := by
  have hsk : getStoredKeys entries e.getName = some e.getStore := by
    rw [getStoredKeys_eq_buildMap]
    exact buildMap_mem _ _ _ _ hmem hnd
  unfold GoMap.get restoreParamMap effectiveOverlay
  rw [hsk]
  cases h : override e.getName with
  | some v => simp
  | none => cases hst : e.getStore <;> simp

theorem restore_not_stored (entries : List Entry) (override fileParams : GoMap String)
    (e : Entry) (hmem : e ∈ entries) (hnd : (entries.map Entry.getName).Nodup)
    (hstore : e.getStore = false) :
    restoreParamMap override (getStoredKeys entries) fileParams e.getName
      = override e.getName := by
  have hsk : getStoredKeys entries e.getName = some e.getStore := by
    rw [getStoredKeys_eq_buildMap]
    exact buildMap_mem _ _ _ _ hmem hnd
  unfold restoreParamMap
  rw [hsk, hstore]
  cases h : override e.getName <;> simp

theorem parseEntry_error_of_unknown (r : RawEntry) (h1 : r.type ≠ "Text")
    (h2 : r.type ≠ "Choice") (h3 : r.type ≠ "Boolean") :
    parseEntry r = .error ("unknown entry type: " ++ r.type) := by
  unfold parseEntry
  rw [if_neg h1, if_neg h2, if_neg h3]

theorem parseEntry_ok_of_known (r : RawEntry)
    (h : r.type = "Text" ∨ r.type = "Choice" ∨ r.type = "Boolean") :
    ∃ e, parseEntry r = .ok e := by
  unfold parseEntry
  rcases h with h | h | h <;> rw [h]
  · exact ⟨_, if_pos rfl⟩
  · rw [if_neg (by decide), if_pos rfl]
    exact ⟨_, rfl⟩
  · rw [if_neg (by decide), if_neg (by decide), if_pos rfl]
    exact ⟨_, rfl⟩

theorem parseEntries_error_of_bad :
    ∀ rs : List RawEntry,
      (∃ r ∈ rs, r.type ≠ "Text" ∧ r.type ≠ "Choice" ∧ r.type ≠ "Boolean") →
      ∃ t, (t ≠ "Text" ∧ t ≠ "Choice" ∧ t ≠ "Boolean") ∧ (∃ r ∈ rs, r.type = t) ∧
        parseEntries rs = .error ("unknown entry type: " ++ t) := by
  intro rs
  induction rs with
  | nil => intro h; rcases h with ⟨r, hr, _⟩; cases hr
  | cons r rs ih =>
    intro h
    by_cases hr : r.type ≠ "Text" ∧ r.type ≠ "Choice" ∧ r.type ≠ "Boolean"
    · refine ⟨r.type, hr, ⟨r, List.mem_cons_self r rs, rfl⟩, ?_⟩
      have he := parseEntry_error_of_unknown r hr.1 hr.2.1 hr.2.2
      simp [parseEntries, he]
    · have hk : r.type = "Text" ∨ r.type = "Choice" ∨ r.type = "Boolean" := by
        by_contra hc
        push_neg at hc
        exact hr ⟨hc.1, hc.2.1, hc.2.2⟩
      obtain ⟨e, he⟩ := parseEntry_ok_of_known r hk
      have hbad : ∃ q ∈ rs, q.type ≠ "Text" ∧ q.type ≠ "Choice" ∧ q.type ≠ "Boolean" := by
        rcases h with ⟨q, hq, hqbad⟩
        rcases List.mem_cons.mp hq with rfl | hq2
        · exact absurd hqbad hr
        · exact ⟨q, hq2, hqbad⟩
      obtain ⟨t, ht, ⟨q, hq, hqt⟩, herr⟩ := ih hbad
      exact ⟨t, ht, ⟨q, List.mem_cons_of_mem _ hq, hqt⟩, by simp [parseEntries, he, herr]⟩

/-- Claim C3: validateInput fails with the too-short error when the value
length is below minLength; fails with the too-long error when maxLength is
positive and the length exceeds it (a non-positive maxLength imposes no upper
bound); fails with the mismatch error when the pattern is non-empty, compiles,
and the value does not match it, showing patternHint when the hint is
non-empty and the raw pattern text otherwise; and succeeds when none of these
conditions hold. -/
theorem validateInput_characterization (compile : RegexCompile) (v : String)
    (minLength maxLength : Int) (p hint : String) :
    (goLen v < minLength →
      validateInput compile v minLength maxLength p hint
        = some (.tooShort minLength (goLen v)))
    ∧ (¬ goLen v < minLength → maxLength > 0 → goLen v > maxLength →
      validateInput compile v minLength maxLength p hint
        = some (.tooLong maxLength (goLen v)))
    ∧ (∀ re, ¬ goLen v < minLength → ¬ (maxLength > 0 ∧ goLen v > maxLength) →
        p ≠ "" → compile p = .ok re → re v = false →
      validateInput compile v minLength maxLength p hint
        = some (.patternMismatch (if hint = "" then p else hint)))
    ∧ (¬ goLen v < minLength → ¬ (maxLength > 0 ∧ goLen v > maxLength) →
        (p = "" ∨ ∃ re, compile p = .ok re ∧ re v = true) →
      validateInput compile v minLength maxLength p hint = none) := by
  refine ⟨?_, ?_, ?_, ?_⟩
  · intro h
    unfold validateInput
    rw [if_pos h]
  · intro h1 h2 h3
    unfold validateInput
    rw [if_neg h1, if_pos ⟨h2, h3⟩]
  · intro re h1 h2 hp hc hm
    unfold validateInput
    rw [if_neg h1, if_neg h2, if_pos hp, hc]
    simp [hm]
  · intro h1 h2 hp
    unfold validateInput
    rw [if_neg h1, if_neg h2]
    rcases hp with rfl | ⟨re, hc, hm⟩
    · rw [if_neg (by simp)]
    · by_cases hps : p = ""
      · rw [if_neg (by simp [hps])]
      · rw [if_pos hps, hc]
        simp [hm]

/-- Witness for claim C3: the characterization applied at concrete inputs, an
accepted in-bounds value and a rejected too-short one. -/
theorem validateInput_characterization_witness :
    validateInput reAny "hello" 3 10 "" "" = none
    ∧ validateInput reAny "no" 3 10 "" "" = some (.tooShort 3 2) := by
  constructor
  · exact (validateInput_characterization reAny "hello" 3 10 "" "").2.2.2
      (by decide) (by decide) (Or.inl rfl)
  · exact (validateInput_characterization reAny "no" 3 10 "" "").1 (by decide)

/-- Counterexample for claim C4: a pattern that fails to compile is surfaced
through the same validate callback as user-input validation failures, so the
form step re-prompts inline instead of raising a distinct fatal configuration
error. -/
theorem patternCompile_reprompt_counterexample :
    textFieldStep reFailLParen textEntryBadPattern "x"
      = .reprompt (.invalidPattern "invalid pattern: error parsing regexp: missing closing )") := by
  rfl

/-- Claim C4 (amended): for a Text field whose pattern fails to compile, the
error is built at the compile-failure return site with the distinct invalid
pattern message, but it flows through the same validation channel as
user-input failures: the form step re-prompts with it inline. -/
theorem patternCompile_inline_error (compile : RegexCompile) (e : TextEntry) (input msg : String)
    (h1 : ¬ goLen input < e.minLength)
    (h2 : ¬ (e.maxLength > 0 ∧ goLen input > e.maxLength))
    (hp : e.pattern ≠ "")
    (hc : compile e.pattern = .error msg) :
    textFieldStep compile e input
      = .reprompt (.invalidPattern ("invalid pattern: " ++ msg))
    ∧ validateInput compile input e.minLength e.maxLength e.pattern e.patternHint
      = some (.invalidPattern ("invalid pattern: " ++ msg)) := by
  have hv : validateInput compile input e.minLength e.maxLength e.pattern e.patternHint
      = some (.invalidPattern ("invalid pattern: " ++ msg)) := by
    unfold validateInput
    rw [if_neg h1, if_neg h2, if_pos hp, hc]
  refine ⟨?_, hv⟩
  unfold textFieldStep
  rw [hv]

/-- Witness for claim C4 (amended): the amended statement applied at the
concrete non-compiling pattern. -/
theorem patternCompile_inline_error_witness :
    textFieldStep reFailLParen textEntryBadPattern "fix parser"
      = .reprompt (.invalidPattern "invalid pattern: error parsing regexp: missing closing )") :=
  (patternCompile_inline_error reFailLParen textEntryBadPattern "fix parser"
    "error parsing regexp: missing closing )" (by decide) (by decide) (by decide) rfl).1

/-- Claim C5: an entry whose type discriminator is not one of the
case-sensitive literals Text, Choice, Boolean makes the parse fail with an
error naming the offending type string and produces no entry, both at the
single-entry level and for a whole configuration document containing such an
entry; the three known literals decode and initialize the live value from the
default at parse time. -/
theorem parseEntry_dispatch :
    (∀ r : RawEntry, r.type ≠ "Text" → r.type ≠ "Choice" → r.type ≠ "Boolean" →
      parseEntry r = .error ("unknown entry type: " ++ r.type))
    ∧ (∀ (rs : List RawEntry) (template : String) (overview : Bool),
        (∃ r ∈ rs, r.type ≠ "Text" ∧ r.type ≠ "Choice" ∧ r.type ≠ "Boolean") →
        ∃ t, (t ≠ "Text" ∧ t ≠ "Choice" ∧ t ≠ "Boolean") ∧ (∃ r ∈ rs, r.type = t) ∧
          parseConfiguration rs template overview = .error ("unknown entry type: " ++ t))
    ∧ (∀ r : RawEntry, r.type = "Text" →
        ∃ e : TextEntry, parseEntry r = .ok (.text e)
          ∧ e.value = e.default ∧ e.default = r.defaultText)
    ∧ (∀ r : RawEntry, r.type = "Choice" →
        ∃ e : ChoiceEntry, parseEntry r = .ok (.choice e)
          ∧ e.value = e.default ∧ e.default = r.defaultText)
    ∧ (∀ r : RawEntry, r.type = "Boolean" →
        ∃ e : BooleanEntry, parseEntry r = .ok (.boolean e)
          ∧ e.value = e.default ∧ e.default = r.defaultBool) := by
  refine ⟨parseEntry_error_of_unknown, ?_, ?_, ?_, ?_⟩
  · intro rs template overview h
    obtain ⟨t, ht, hmem, herr⟩ := parseEntries_error_of_bad rs h
    exact ⟨t, ht, hmem, by simp [parseConfiguration, herr]⟩
  · intro r h
    refine ⟨{ name := r.name, label := r.label, description := r.description
            , minLength := r.minLength, maxLength := r.maxLength, multiLine := r.multiLine
            , pattern := r.pattern, patternHint := r.patternHint
            , default := r.defaultText, value := r.defaultText, store := r.store }, ?_, rfl, rfl⟩
    unfold parseEntry
    rw [h, if_pos rfl]
  · intro r h
    refine ⟨{ name := r.name, label := r.label, description := r.description
            , choices := if r.showValues then padChoices r.choices else r.choices
            , default := r.defaultText, value := r.defaultText
            , store := r.store, showValues := r.showValues }, ?_, rfl, rfl⟩
    unfold parseEntry
    rw [h, if_neg (by decide), if_pos rfl]
  · intro r h
    refine ⟨{ name := r.name, label := r.label, description := r.description
            , default := r.defaultBool, value := r.defaultBool, store := r.store }, ?_, rfl, rfl⟩
    unfold parseEntry
    rw [h, if_neg (by decide), if_neg (by decide), if_pos rfl]

/-- Witness for claim C5: the dispatch characterization applied to a concrete
unknown discriminator. -/
theorem parseEntry_dispatch_witness :
    parseEntry { rawChoiceAB with type := "Weird" }
      = .error ("unknown entry type: " ++ "Weird") :=
  parseEntry_dispatch.1 { rawChoiceAB with type := "Weird" }
    (by decide) (by decide) (by decide)

/-- Counterexample for claim C6: at parse time the source pads the raw value
on the RIGHT (value first, then alignment spaces), while the claim describes a
left-padded value; the two transforms disagree on a two-option field with
values of different widths. -/
theorem showValues_padding_counterexample :
    parseEntry rawChoiceAB
      = .ok (.choice
          { name := "kind", label := "Kind", description := ""
            choices := [⟨"a", "a   Alpha"⟩, ⟨"abc", "abc Beta"⟩]
            default := "a", value := "a", store := false, showValues := true })
    ∧ padChoicesSpecLeft choicesAB = [⟨"a", "  a Alpha"⟩, ⟨"abc", "abc Beta"⟩]
    ∧ padChoices choicesAB ≠ padChoicesSpecLeft choicesAB := by
  refine ⟨rfl, rfl, by decide⟩

/-- Claim C6 (amended): for a Choice entry with showValues set, parsing
rewrites each option label exactly once into the raw value followed by enough
spaces to reach the widest value width, a single separating space, and the
original label (the value is left-aligned, padded on the right); options of
entries without showValues are unchanged. -/
theorem showValues_padding_right :
    (∀ r : RawEntry, r.type = "Choice" →
      ∃ e : ChoiceEntry, parseEntry r = .ok (.choice e)
        ∧ e.choices = (if r.showValues then padChoices r.choices else r.choices))
    ∧ (∀ (cs : List Choice) (c : Choice), c ∈ cs →
        ({ c with label :=
            c.value ++ spaces (maxValueLength cs - c.value.utf8ByteSize) ++ " " ++ c.label })
          ∈ padChoices cs) := by
  constructor
  · intro r h
    refine ⟨{ name := r.name, label := r.label, description := r.description
            , choices := if r.showValues then padChoices r.choices else r.choices
            , default := r.defaultText, value := r.defaultText
            , store := r.store, showValues := r.showValues }, ?_, rfl⟩
    unfold parseEntry
    rw [h, if_neg (by decide), if_pos rfl]
  · intro cs c hc
    unfold padChoices
    exact List.mem_map_of_mem _ hc

/-- Witness for claim C6 (amended): the padding characterization applied to
the concrete two-option field. -/
theorem showValues_padding_right_witness :
    ∃ e : ChoiceEntry, parseEntry rawChoiceAB = .ok (.choice e)
      ∧ e.choices
        = (if rawChoiceAB.showValues then padChoices rawChoiceAB.choices else rawChoiceAB.choices) :=
  showValues_padding_right.1 rawChoiceAB rfl

/-- Claim C7: for a Boolean field and a non-empty overlay string s, the merge
step sets the live value to true exactly when s equals true case-insensitively
or is the literal 1, and to false for every other s, raising no error. -/
theorem booleanOverlay_coercion (pm : GoMap String) (e : BooleanEntry) (s : String)
    (hs : pm e.name = some s) (hne : s ≠ "") :
    mergeEntry pm (.boolean e)
      = .boolean { e with value := (s.toLower == "true" || s == "1") }
    ∧ (((s.toLower == "true" || s == "1") : Bool) = true ↔ (s.toLower = "true" ∨ s = "1")) := by
  have hget : pm.get e.name = s := by simp [GoMap.get, hs]
  constructor
  · rw [mergeEntry_boolean, hget, if_neg hne]
  · simp

/-- Witness for claim C7: the coercion applied to the concrete overlay TRUE
for the breaking field. -/
theorem booleanOverlay_coercion_witness :
    mergeEntry overrideBreaking (.boolean booleanEntryW)
      = .boolean { booleanEntryW with value := ("TRUE".toLower == "true" || "TRUE" == "1") } :=
  (booleanOverlay_coercion overrideBreaking booleanEntryW "TRUE" rfl (by decide)).1

/-- Claim C8: rendering is deterministic and depends only on the template
string and the name-to-value bindings of the entries: two configurations with
the same template and the same name and value sequence render to the same
output, whatever their other metadata. -/
theorem renderCommitMessage_deterministic (parseTemplate : String → Except String Tmpl)
    (cfg1 cfg2 : Configuration) (ht : cfg1.template = cfg2.template)
    (hv : cfg1.entries.map (fun e => (Entry.getName e, Entry.getValue e))
        = cfg2.entries.map (fun e => (Entry.getName e, Entry.getValue e))) :
    renderCommitMessage parseTemplate cfg1 = renderCommitMessage parseTemplate cfg2 := by
  have hvars : varsOf cfg1.entries = varsOf cfg2.entries := by
    rw [varsOf_eq_buildMap, varsOf_eq_buildMap]
    exact buildMap_pairs Entry.getValue _ _ _ hv
  unfold renderCommitMessage
  rw [ht, hvars]

/-- Witness for claim C8: determinism applied to two concrete configurations
differing only in display metadata. -/
theorem renderCommitMessage_deterministic_witness :
    renderCommitMessage (fun _ => .ok (.lit "hello")) cfgRender1
      = renderCommitMessage (fun _ => .ok (.lit "hello")) cfgRender2 :=
  renderCommitMessage_deterministic (fun _ => .ok (.lit "hello")) cfgRender1 cfgRender2 rfl rfl

/-- Claim C9: an explicit override entry holding the empty string is treated
as absent at merge time — the field keeps the value it got from its default
at parse time — yet its presence as a key makes restoreParamMap keep the
empty entry, so a persisted value is never merged for that field. -/
theorem emptyOverride_blocks_persisted (entries : List Entry)
    (override fileParams : GoMap String) (e : Entry) (hmem : e ∈ entries)
    (hov : override (Entry.getName e) = some "") :
    restoreParamMap override (getStoredKeys entries) fileParams (Entry.getName e) = some ""
    ∧ mergeEntry (restoreParamMap override (getStoredKeys entries) fileParams) e = e := by
  have hpm : restoreParamMap override (getStoredKeys entries) fileParams (Entry.getName e)
      = some "" := by
    unfold restoreParamMap
    rw [hov]
  refine ⟨hpm, ?_⟩
  have hget : (restoreParamMap override (getStoredKeys entries) fileParams).get (Entry.getName e)
      = "" := by
    simp [GoMap.get, hpm]
  cases e with
  | text te =>
    have h2 : (restoreParamMap override (getStoredKeys entries) fileParams).get te.name = "" :=
      hget
    rw [mergeEntry_text, h2, if_pos rfl]
  | choice ce =>
    have h2 : (restoreParamMap override (getStoredKeys entries) fileParams).get ce.name = "" :=
      hget
    rw [mergeEntry_choice, h2, if_neg (fun hc => hc.1 rfl)]
  | boolean be =>
    have h2 : (restoreParamMap override (getStoredKeys entries) fileParams).get be.name = "" :=
      hget
    rw [mergeEntry_boolean, h2, if_pos rfl]

/-- Witness for claim C9: the empty override applied to the concrete scope
field while a persisted value exists for the same key. -/
theorem emptyOverride_blocks_persisted_witness :
    restoreParamMap overrideScopeEmpty (getStoredKeys entriesW) persistedScope
      (Entry.getName (.text textEntryW)) = some ""
    ∧ mergeEntry (restoreParamMap overrideScopeEmpty (getStoredKeys entriesW) persistedScope)
        (.text textEntryW) = .text textEntryW :=
  emptyOverride_blocks_persisted entriesW overrideScopeEmpty persistedScope (.text textEntryW)
    (List.mem_singleton.mpr rfl) rfl

/-- Claim C10: the binding environment built by the renderer maps a duplicated
field name to the value of the last entry carrying that name, and rendering
proceeds on such configurations instead of rejecting them. -/
theorem varsOf_lastDuplicate_wins :
    (∀ (l1 : List Entry) (e : Entry) (l2 : List Entry),
      (∀ q ∈ l2, Entry.getName q ≠ Entry.getName e) →
      varsOf (l1 ++ e :: l2) (Entry.getName e) = some (Entry.getValue e))
    ∧ (∀ (parseTemplate : String → Except String Tmpl) (cfg : Configuration) (t : Tmpl),
        cfg.template ≠ "" → parseTemplate cfg.template = .ok t →
        renderCommitMessage parseTemplate cfg = .ok (evalTmpl (varsOf cfg.entries) t)) := by
  constructor
  · intro l1 e l2 h
    rw [varsOf_eq_buildMap]
    exact buildMap_last _ e l2 h l1 _
  · intro parseTemplate cfg t hne hok
    unfold renderCommitMessage
    rw [if_neg hne, hok]

/-- Witness for claim C10: two same-named fields, the environment holding the
second value. -/
theorem varsOf_lastDuplicate_wins_witness :
    varsOf dupEntries "x" = some (.str "second") :=
  varsOf_lastDuplicate_wins.1 [.text { textEntryW with name := "x", value := "first" }]
    (.text { textEntryW with name := "x", value := "second" }) []
    (fun q hq => absurd hq (List.not_mem_nil q))

/-- Claim C2: building the persisted map from the entries and saving it, then
loading it back, yields exactly the serialized values of the store-flagged
fields; fields whose store flag is false have no key in the loaded map, keys
named by no field are absent, and the previous file contents are irrelevant
because saving replaces them entirely. -/
theorem updateParamMap_roundtrip (entries : List Entry) (previousFile : Option (GoMap String))
    (hnd : (entries.map Entry.getName).Nodup) :
    (∀ e ∈ entries,
      (Entry.getStore e = true →
        loadParamMapFromFile
          (saveParamMapToFile (updateParamMap entries (getStoredKeys entries)) previousFile)
          (Entry.getName e)
        = some (serializeEntryValue e))
      ∧ (Entry.getStore e = false →
        loadParamMapFromFile
          (saveParamMapToFile (updateParamMap entries (getStoredKeys entries)) previousFile)
          (Entry.getName e)
        = none))
    ∧ (∀ k : String, (∀ e ∈ entries, Entry.getName e ≠ k) →
        loadParamMapFromFile
          (saveParamMapToFile (updateParamMap entries (getStoredKeys entries)) previousFile) k
        = none) := by
  have hload : loadParamMapFromFile
      (saveParamMapToFile (updateParamMap entries (getStoredKeys entries)) previousFile)
      = updateParamMap entries (getStoredKeys entries) := rfl
  rw [hload, updateParamMap_eq_filter]
  have hndf : ((entries.filter
      (fun q => decide (getStoredKeys entries q.getName = some true))).map Entry.getName).Nodup :=
    List.Nodup.sublist (List.Sublist.map Entry.getName (List.filter_sublist entries)) hnd
  constructor
  · intro e hmem
    have hsk : getStoredKeys entries e.getName = some e.getStore := by
      rw [getStoredKeys_eq_buildMap]
      exact buildMap_mem _ _ _ _ hmem hnd
    constructor
    · intro hstore
      rw [hstore] at hsk
      have hmemf : e ∈ entries.filter
          (fun q => decide (getStoredKeys entries q.getName = some true)) :=
        List.mem_filter.mpr ⟨hmem, by simp [hsk]⟩
      exact buildMap_mem _ _ _ _ hmemf hndf
    · intro hstore
      rw [hstore] at hsk
      have hnone : ∀ q ∈ entries.filter
          (fun q => decide (getStoredKeys entries q.getName = some true)),
          Entry.getName q ≠ Entry.getName e := by
        intro q hq hEq
        have hq2 := List.mem_filter.mp hq
        have hqt : getStoredKeys entries q.getName = some true := of_decide_eq_true hq2.2
        rw [hEq, hsk] at hqt
        simp at hqt
      rw [buildMap_not_mem _ _ _ _ hnone]
      rfl
  · intro k hk
    have hnone : ∀ q ∈ entries.filter
        (fun q => decide (getStoredKeys entries q.getName = some true)),
        Entry.getName q ≠ k :=
      fun q hq => hk q (List.mem_filter.mp hq).1
    rw [buildMap_not_mem _ _ _ _ hnone]
    rfl

/-- Witness for claim C2: the round trip on a concrete two-field
configuration, one field store-flagged and one not, over a non-empty previous
file. -/
theorem updateParamMap_roundtrip_witness :
    loadParamMapFromFile
      (saveParamMapToFile (updateParamMap entriesStoreMix (getStoredKeys entriesStoreMix))
        (some persistedScope)) "scope"
      = some "api"
    ∧ loadParamMapFromFile
        (saveParamMapToFile (updateParamMap entriesStoreMix (getStoredKeys entriesStoreMix))
          (some persistedScope)) "breaking"
      = none := by
  have h := updateParamMap_roundtrip entriesStoreMix (some persistedScope) (by decide)
  exact ⟨(h.1 _ (List.mem_cons_self _ _)).1 rfl
       , (h.1 _ (List.mem_cons_of_mem _ (List.mem_cons_self _ _))).2 rfl⟩

/-- Counterexample for claim C1: a store-flagged Choice field with default
feat, a persisted value fix, and a non-empty explicit override bogus that
matches no option value; the claim says the explicit override wins, but the
final live value is the schema default feat. -/
theorem choiceOverrideBogus_counterexample :
    overrideBogus "kind" = some "bogus"
    ∧ persistedFix "kind" = some "fix"
    ∧ finalEntries entriesKind overrideBogus persistedFix = [.choice choiceEntryKind]
    ∧ Entry.getValue (.choice choiceEntryKind) = .str "feat"
    ∧ ("feat" : String) ≠ "bogus" := by
  exact ⟨rfl, rfl, rfl, rfl, by decide⟩

/-- Claim C1 (amended): the merged paramMap selects the overlay source by
precedence — an override entry when present, else the persisted value for
store-flagged fields, else nothing — and the selected overlay then takes
effect per field type: a Text value is replaced by any non-empty overlay, a
Choice value only by a non-empty overlay equal to one of its option values, a
Boolean value by truthiness coercion of a non-empty overlay; in every other
case the field keeps its parse-time default, and a field whose store flag is
false never receives a persisted value. -/
theorem mergePrecedence_perType (entries : List Entry) (override fileParams : GoMap String)
    (e : Entry) (hmem : e ∈ entries) (hnd : (entries.map Entry.getName).Nodup) :
    mergeEntry (restoreParamMap override (getStoredKeys entries) fileParams) e
      ∈ finalEntries entries override fileParams
    ∧ (∀ te : TextEntry, e = .text te →
        mergeEntry (restoreParamMap override (getStoredKeys entries) fileParams) e
          = .text { te with value :=
              (if effectiveOverlay override fileParams te.store te.name = "" then te.value
               else effectiveOverlay override fileParams te.store te.name) })
    ∧ (∀ ce : ChoiceEntry, e = .choice ce →
        mergeEntry (restoreParamMap override (getStoredKeys entries) fileParams) e
          = .choice { ce with value :=
              (if effectiveOverlay override fileParams ce.store ce.name ≠ ""
                  ∧ effectiveOverlay override fileParams ce.store ce.name
                      ∈ ce.choices.map Choice.value
               then effectiveOverlay override fileParams ce.store ce.name else ce.value) })
    ∧ (∀ be : BooleanEntry, e = .boolean be →
        mergeEntry (restoreParamMap override (getStoredKeys entries) fileParams) e
          = .boolean { be with value :=
              (if effectiveOverlay override fileParams be.store be.name = "" then be.value
               else ((effectiveOverlay override fileParams be.store be.name).toLower == "true"
                     || effectiveOverlay override fileParams be.store be.name == "1")) })
    ∧ (Entry.getStore e = false →
        restoreParamMap override (getStoredKeys entries) fileParams (Entry.getName e)
          = override (Entry.getName e)) := by
  have hget := restore_get entries override fileParams e hmem hnd
  refine ⟨?_, ?_, ?_, ?_, ?_⟩
  · unfold finalEntries
    have hne : entries.isEmpty = false := by
      cases entries with
      | nil => cases hmem
      | cons q qs => rfl
    simp only [hne, Bool.false_eq_true, if_false]
    exact List.mem_map_of_mem _ hmem
  · intro te h
    subst h
    have h2 : (restoreParamMap override (getStoredKeys entries) fileParams).get te.name
        = effectiveOverlay override fileParams te.store te.name := hget
    rw [mergeEntry_text, h2]
  · intro ce h
    subst h
    have h2 : (restoreParamMap override (getStoredKeys entries) fileParams).get ce.name
        = effectiveOverlay override fileParams ce.store ce.name := hget
    rw [mergeEntry_choice, h2]
  · intro be h
    subst h
    have h2 : (restoreParamMap override (getStoredKeys entries) fileParams).get be.name
        = effectiveOverlay override fileParams be.store be.name := hget
    rw [mergeEntry_boolean, h2]
  · intro hstore
    exact restore_not_stored entries override fileParams e hmem hnd hstore

/-- Witness for claim C1 (amended): the per-type precedence applied to the
concrete scope field with a non-empty override and no persisted file. -/
theorem mergePrecedence_perType_witness :
    mergeEntry (restoreParamMap overrideScope (getStoredKeys entriesW) GoMap.empty)
      (.text textEntryW)
      = .text { textEntryW with value :=
          (if effectiveOverlay overrideScope GoMap.empty textEntryW.store textEntryW.name = ""
           then textEntryW.value
           else effectiveOverlay overrideScope GoMap.empty textEntryW.store textEntryW.name) } :=
  (mergePrecedence_perType entriesW overrideScope GoMap.empty (.text textEntryW)
    (List.mem_singleton.mpr rfl) (by decide)).2.1 textEntryW rfl

end Commity
